import Mathlib

/-!
Verification of the GLB manipulation core of this repository.

The embedding below is a shallow model of the code in `src/glb-utils.ts`
(functions `transformGlb` and `glbToGeometryData`), `src/types.ts`
(`createTransformMatrix`) and the inline transform matrix of
`src/RenderAsMesh.tsx`, over the in-memory document model those functions
manipulate through the glTF-Transform object API (scenes, nodes, meshes,
primitives, accessors).

Numeric values: the source operates on JS numbers, but the only numeric
operations any verified path performs are copying values and negating them
(`-y`, `-s`), both exact in IEEE double arithmetic; we therefore model the
scalars as `Rat`, which is decidable and computable, without losing
faithfulness on these paths.

The scene graph is modelled as an arena: `nodes` is the list of all nodes of
the document, a node reference is an index into that list, and a scene is its
list of root node indices, matching the handle-based representation the
document model exposes (`doc.createNode` appends a fresh node,
`scene.listChildren` / `removeChild` / `addChild` edit the root list).
-/

/-- A 3-component vector of scalars (translation, scale). -/
structure Vec3 where
  x : Rat
  y : Rat
  z : Rat
deriving DecidableEq

/-- A 4-component vector of scalars (rotation quaternion). -/
structure Vec4 where
  x : Rat
  y : Rat
  z : Rat
  w : Rat
deriving DecidableEq

/-- A scene-graph node: name, local TRS transform, optional mesh reference and
child node references, as exposed by the document model used in
`src/glb-utils.ts`. A fresh node (`doc.createNode`) has identity transform,
no mesh and no children. -/
structure Node where
  name : String
  translation : Vec3
  rotation : Vec4
  scale : Vec3
  mesh : Option Nat
  children : List Nat
deriving DecidableEq

/-- An accessor over float data (`POSITION` / `NORMAL` attributes).
`array` is the value of `accessor.getArray()`: `none` when the accessor's
backing buffer data is not resolvable (for example a document decoded from a
JSON-only GLB with zero binary chunks), `some` the flat float array otherwise. -/
structure Accessor where
  array : Option (List Rat)
deriving DecidableEq

/-- An accessor over integer index data (`primitive.getIndices()`), with the
same resolvability convention as `Accessor`. -/
structure IndexAccessor where
  array : Option (List Nat)
deriving DecidableEq

/-- A mesh primitive: the `POSITION` and `NORMAL` attributes and the index
accessor, each of which may be absent. -/
structure Primitive where
  position : Option Accessor
  normal : Option Accessor
  indices : Option IndexAccessor
deriving DecidableEq

/-- A mesh is its list of primitives. -/
structure Mesh where
  primitives : List Primitive
deriving DecidableEq

/-- The decoded document: node arena, scenes (each a list of root node
indices), and meshes. -/
structure GlbDocument where
  nodes : List Node
  scenes : List (List Nat)
  meshes : List Mesh
deriving DecidableEq

/-- The wrapper node built by `transformGlb` in `src/glb-utils.ts`:
`doc.createNode("transform_wrapper")` followed by
`setTranslation([x, z, -y])` and `setScale([scale, scale, scale])`, then
`addChild` for each former root in order, so its child list is the scene's
former root list. -/
def wrapperNode (x y z scale : Rat) (roots : List Nat) : Node :=
  { name := "transform_wrapper"
    translation := ⟨x, z, -y⟩
    rotation := ⟨0, 0, 0, 1⟩
    scale := ⟨scale, scale, scale⟩
    mesh := none
    children := roots }

/-- One iteration of the scene loop of `transformGlb`: an empty scene is
skipped (`continue`), otherwise a fresh wrapper node is appended to the arena
and the scene's root list becomes the singleton of its index. -/
def transformStep (x y z scale : Rat) (acc : List Node × List (List Nat))
    (roots : List Nat) : List Node × List (List Nat) :=
  if roots.isEmpty then (acc.1, acc.2 ++ [roots])
  else (acc.1 ++ [wrapperNode x y z scale roots], acc.2 ++ [[acc.1.length]])

/-- The scene-graph mutation performed by `transformGlb` in
`src/glb-utils.ts` (lines 19-33), between the `readBinary` and `writeBinary`
calls: for each scene in order, reparent all roots under a fresh wrapper
node carrying the translation `(x, z, -y)` and uniform scale. -/
def transformGlb (doc : GlbDocument) (x y z : Rat) (scale : Rat) : GlbDocument :=
  let res := doc.scenes.foldl (transformStep x y z scale) (doc.nodes, [])
  { doc with nodes := res.1, scenes := res.2 }

/-- Recursive characterisation of the scene loop: given the current arena
size `n`, returns the nodes appended and the new scene root lists. -/
def transformScenes (x y z scale : Rat) : Nat → List (List Nat) → List Node × List (List Nat)
  | _, [] => ([], [])
  | n, roots :: rest =>
    if roots.isEmpty then
      ((transformScenes x y z scale n rest).1,
       roots :: (transformScenes x y z scale n rest).2)
    else
      (wrapperNode x y z scale roots :: (transformScenes x y z scale (n + 1) rest).1,
       [n] :: (transformScenes x y z scale (n + 1) rest).2)

theorem foldl_transformStep (x y z scale : Rat) (ss : List (List Nat)) :
    ∀ (nodes : List Node) (scs : List (List Nat)),
    ss.foldl (transformStep x y z scale) (nodes, scs)
      = (nodes ++ (transformScenes x y z scale nodes.length ss).1,
         scs ++ (transformScenes x y z scale nodes.length ss).2) := by
  induction ss with
  | nil => intro nodes scs; simp [transformScenes]
  | cons roots rest ih =>
    intro nodes scs
    by_cases h : roots.isEmpty
    · simp only [List.foldl_cons, transformStep, h, if_true, transformScenes]
      rw [ih]
      simp [List.append_assoc]
    · simp only [List.foldl_cons, transformStep, h, if_false, transformScenes]
      rw [ih]
      simp [List.append_assoc]

theorem transformGlb_eq (doc : GlbDocument) (x y z scale : Rat) :
    transformGlb doc x y z scale
      = { doc with
          nodes := doc.nodes ++ (transformScenes x y z scale doc.nodes.length doc.scenes).1,
          scenes := (transformScenes x y z scale doc.nodes.length doc.scenes).2 } := by
  simp [transformGlb, foldl_transformStep]

theorem transformScenes_snd_length (x y z scale : Rat) (ss : List (List Nat)) :
    ∀ n, ((transformScenes x y z scale n ss).2).length = ss.length := by
  induction ss with
  | nil => intro n; simp [transformScenes]
  | cons roots rest ih =>
    intro n
    by_cases h : roots.isEmpty
    · simp [transformScenes, h, ih]
    · simp [transformScenes, h, ih]

theorem transformScenes_fst_length (x y z scale : Rat) (ss : List (List Nat)) :
    ∀ n, ((transformScenes x y z scale n ss).1).length
      = ss.countP (fun r => !r.isEmpty) := by
  induction ss with
  | nil => intro n; simp [transformScenes]
  | cons roots rest ih =>
    intro n
    by_cases h : roots.isEmpty
    · simp [transformScenes, h, ih, List.countP_cons]
    · simp [transformScenes, h, ih, List.countP_cons]

theorem transformScenes_empty_preserved (x y z scale : Rat) (ss : List (List Nat)) :
    ∀ (n i : Nat), ss[i]? = some [] → ((transformScenes x y z scale n ss).2)[i]? = some [] := by
  induction ss with
  | nil => intro n i h; simp at h
  | cons roots rest ih =>
    intro n i h
    cases i with
    | zero =>
      simp only [List.getElem?_cons_zero, Option.some.injEq] at h
      subst h
      simp [transformScenes, List.isEmpty]
    | succ j =>
      simp only [List.getElem?_cons_succ] at h
      by_cases he : roots.isEmpty
      · simp [transformScenes, he, ih _ j h]
      · simp [transformScenes, he, ih _ j h]

/-- A sample node used by concrete instantiations below. -/
def sampleNode : Node :=
  { name := "n", translation := ⟨5, 6, 7⟩, rotation := ⟨0, 0, 0, 1⟩,
    scale := ⟨1, 1, 1⟩, mesh := some 0, children := [] }

/-- A document with a single scene holding one root node. -/
def sampleDocOneRoot : GlbDocument :=
  { nodes := [sampleNode], scenes := [[0]], meshes := [] }

/-- A document whose first scene is empty and whose second has one root. -/
def sampleDocEmptyScene : GlbDocument :=
  { nodes := [sampleNode], scenes := [[], [0]], meshes := [] }

/-- C1: on a document with exactly one scene containing N >= 1 roots,
`transformGlb` produces a document in which that scene has exactly one root:
a fresh wrapper node absent from the original arena, with translation
`(x, z, -y)`, uniform scale `(s, s, s)`, and whose child list is exactly the
list of former roots. -/
theorem transformGlb_single_scene_wraps (doc : GlbDocument) (roots : List Nat)
    (x y z s : Rat) (hsc : doc.scenes = [roots]) (hne : roots ≠ []) :
    (transformGlb doc x y z s).scenes = [[doc.nodes.length]] ∧
    doc.nodes[doc.nodes.length]? = none ∧
    (transformGlb doc x y z s).nodes[doc.nodes.length]?
      = some { name := "transform_wrapper"
               translation := ⟨x, z, -y⟩
               rotation := ⟨0, 0, 0, 1⟩
               scale := ⟨s, s, s⟩
               mesh := none
               children := roots } := by
  have he : roots.isEmpty = false := by
    cases roots with
    | nil => exact absurd rfl hne
    | cons a l => rfl
  refine ⟨?_, ?_, ?_⟩
  · rw [transformGlb_eq, hsc]
    simp [transformScenes, he]
  · simp
  · rw [transformGlb_eq, hsc]
    simp [transformScenes, he, wrapperNode]

/-- Concrete instantiation of the C1 theorem. -/
theorem transformGlb_single_scene_wraps_witness :
    (transformGlb sampleDocOneRoot 1 2 3 4).scenes = [[1]] ∧
    sampleDocOneRoot.nodes[1]? = none ∧
    (transformGlb sampleDocOneRoot 1 2 3 4).nodes[1]?
      = some { name := "transform_wrapper"
               translation := ⟨1, 3, -2⟩
               rotation := ⟨0, 0, 0, 1⟩
               scale := ⟨4, 4, 4⟩
               mesh := none
               children := [0] } :=
  transformGlb_single_scene_wraps sampleDocOneRoot [0] 1 2 3 4 rfl (by decide)

/-- C5: a scene with zero roots is skipped by `transformGlb`: its root list
is still empty afterwards, and the arena grows by exactly one wrapper per
non-empty scene, so no wrapper is created for the empty scene. -/
theorem transformGlb_empty_scene_skipped (doc : GlbDocument) (x y z s : Rat)
    (i : Nat) (h : doc.scenes[i]? = some []) :
    (transformGlb doc x y z s).scenes[i]? = some [] ∧
    (transformGlb doc x y z s).nodes.length
      = doc.nodes.length + doc.scenes.countP (fun r => !r.isEmpty) := by
  rw [transformGlb_eq]
  exact ⟨transformScenes_empty_preserved x y z s doc.scenes doc.nodes.length i h,
    by simp [transformScenes_fst_length]⟩

/-- Concrete instantiation of the C5 theorem. -/
theorem transformGlb_empty_scene_skipped_witness :
    (transformGlb sampleDocEmptyScene 1 2 3 4).scenes[0]? = some [] ∧
    (transformGlb sampleDocEmptyScene 1 2 3 4).nodes.length = 2 :=
  transformGlb_empty_scene_skipped sampleDocEmptyScene 1 2 3 4 0 rfl

/-- C6: `transformGlb` only reparents: every node of the original arena,
in particular every former scene root, keeps all its properties (name,
translation, rotation, scale, mesh reference, children) unchanged — the new
arena is the old one extended with wrapper nodes — and the meshes are
untouched. -/
theorem transformGlb_preserves_nodes (doc : GlbDocument) (x y z s : Rat) :
    (transformGlb doc x y z s).nodes.take doc.nodes.length = doc.nodes ∧
    (transformGlb doc x y z s).meshes = doc.meshes := by
  rw [transformGlb_eq]
  exact ⟨List.take_left _ _, rfl⟩

/-- The result type of `glbToGeometryData` (`GeometryData` in `src/types.ts`):
a flat position sequence and an optional flat normal sequence. The source
stores them as `Float32Array`; we keep the scalar lists. -/
structure GeometryData where
  position : List Rat
  normal : Option (List Rat)
deriving DecidableEq

/-- The three components of vertex `idx` read from a flat attribute array:
`arr[idx*3]`, `arr[idx*3+1]`, `arr[idx*3+2]` as pushed by the indexed branch
of `glbToGeometryData`. An out-of-range access in the source yields
`undefined` (which becomes `NaN` in the final `Float32Array`); the model
returns `0` there, and every theorem that speaks about element values
assumes the indices are in range, so the difference is never observable in
the stated properties. -/
def idxTriple (arr : List Rat) (idx : Nat) : List Rat :=
  [arr.getD (idx * 3) 0, arr.getD (idx * 3 + 1) 0, arr.getD (idx * 3 + 2) 0]

/-- The contribution of one primitive to `(allPositions, allNormals)` in the
primitive loop of `glbToGeometryData` (`src/glb-utils.ts` lines 52-89): skip
when the `POSITION` accessor is absent or its array unresolvable; with an
index array, push the three components of vertex `indices[i]` for each `i`
(and the matching normal components when a normal array is present); without
indices, push the stored arrays unchanged. -/
def primContribution (p : Primitive) : List Rat × List Rat :=
  match p.position with
  | none => ([], [])
  | some posAcc =>
    match posAcc.array with
    | none => ([], [])
    | some positions =>
      match p.indices.bind IndexAccessor.array with
      | some indices =>
        (indices.flatMap (idxTriple positions),
         match p.normal.bind Accessor.array with
         | some normals => indices.flatMap (idxTriple normals)
         | none => [])
      | none =>
        (positions,
         match p.normal.bind Accessor.array with
         | some normals => normals
         | none => [])

/-- Position part of a primitive's contribution. -/
def primPositionContrib (p : Primitive) : List Rat := (primContribution p).1

/-- Normal part of a primitive's contribution. -/
def primNormalContrib (p : Primitive) : List Rat := (primContribution p).2

/-- One step of the primitive loop, appending a primitive's contribution to
the accumulated `(allPositions, allNormals)` pair. -/
def flattenStep (acc : List Rat × List Rat) (p : Primitive) : List Rat × List Rat :=
  (acc.1 ++ primPositionContrib p, acc.2 ++ primNormalContrib p)

/-- The geometry flattener `glbToGeometryData` of `src/glb-utils.ts`
(lines 43-102), after the `readBinary` call: walk every mesh, then every
primitive, accumulate `allPositions` / `allNormals`, and include the normal
field only when `allNormals.length > 0`. -/
def glbToGeometryData (doc : GlbDocument) : GeometryData :=
  let res := doc.meshes.foldl (fun acc m => m.primitives.foldl flattenStep acc) ([], [])
  { position := res.1, normal := if res.2.length > 0 then some res.2 else none }

/-- All primitives of the document in traversal order. -/
def allPrimitives (doc : GlbDocument) : List Primitive :=
  doc.meshes.flatMap Mesh.primitives

theorem foldl_flattenStep (ps : List Primitive) :
    ∀ acc : List Rat × List Rat,
    ps.foldl flattenStep acc
      = (acc.1 ++ ps.flatMap primPositionContrib, acc.2 ++ ps.flatMap primNormalContrib) := by
  induction ps with
  | nil => intro acc; simp
  | cons p rest ih =>
    intro acc
    simp only [List.foldl_cons, flattenStep, ih, List.flatMap_cons, List.append_assoc]

theorem foldl_meshes_flattenStep (ms : List Mesh) :
    ∀ acc : List Rat × List Rat,
    ms.foldl (fun acc m => m.primitives.foldl flattenStep acc) acc
      = (acc.1 ++ (ms.flatMap Mesh.primitives).flatMap primPositionContrib,
         acc.2 ++ (ms.flatMap Mesh.primitives).flatMap primNormalContrib) := by
  induction ms with
  | nil => intro acc; simp
  | cons m rest ih =>
    intro acc
    rw [List.foldl_cons, foldl_flattenStep, ih]
    simp [List.append_assoc]

theorem glbToGeometryData_eq (doc : GlbDocument) :
    glbToGeometryData doc
      = { position := (allPrimitives doc).flatMap primPositionContrib,
          normal :=
            if 0 < ((allPrimitives doc).flatMap primNormalContrib).length then
              some ((allPrimitives doc).flatMap primNormalContrib)
            else none } := by
  simp [glbToGeometryData, foldl_meshes_flattenStep, allPrimitives]

theorem flatMap_triple_length (f : Nat → List Rat) (hf : ∀ k, (f k).length = 3)
    (idxs : List Nat) : (idxs.flatMap f).length = 3 * idxs.length := by
  induction idxs with
  | nil => simp
  | cons a l ih =>
    simp only [List.flatMap_cons, List.length_append, hf, ih, List.length_cons]
    omega

theorem flatMap_triple_chunk (f : Nat → List Rat) (hf : ∀ k, (f k).length = 3)
    (idxs : List Nat) :
    ∀ i : Nat, i < idxs.length →
      ((idxs.flatMap f).drop (3 * i)).take 3 = f (idxs.getD i 0) := by
  induction idxs with
  | nil => intro i hi; simp at hi
  | cons a l ih =>
    intro i hi
    cases i with
    | zero =>
      have h3 : 3 = (f a).length := (hf a).symm
      simp only [List.flatMap_cons, Nat.mul_zero, List.drop_zero, List.getD_cons_zero]
      rw [h3, List.take_left]
    | succ j =>
      have hj : j < l.length := by simpa using hi
      have hdrop : (f a ++ l.flatMap f).drop (3 * (j + 1))
          = (l.flatMap f).drop (3 * j) := by
        have : 3 * (j + 1) = (f a).length + 3 * j := by rw [hf a]; ring
        rw [this, List.drop_append]
      simp only [List.flatMap_cons, hdrop, List.getD_cons_succ]
      exact ih j hj

theorem idxTriple_length (arr : List Rat) (k : Nat) : (idxTriple arr k).length = 3 := rfl

/-- C2: for a primitive with a resolvable `POSITION` array and a resolvable
index array, `glbToGeometryData` appends, for each index in declared order,
the three position components of that vertex (and the three normal
components when a normal array is present): the contribution has exactly
three floats per index, and its `i`-th triple is the components of vertex
`indices[i]`. -/
theorem glbToGeometryData_indexed_expansion (p : Primitive) (posAcc : Accessor)
    (ps : List Rat) (idxAcc : IndexAccessor) (idxs : List Nat)
    (hp : p.position = some posAcc) (hps : posAcc.array = some ps)
    (hi : p.indices = some idxAcc) (hidx : idxAcc.array = some idxs)
    (_hbound : ∀ k ∈ idxs, k * 3 + 2 < ps.length) :
    (primPositionContrib p).length = 3 * idxs.length ∧
    (∀ i : Nat, i < idxs.length →
      ((primPositionContrib p).drop (3 * i)).take 3
        = [ps.getD (idxs.getD i 0 * 3) 0, ps.getD (idxs.getD i 0 * 3 + 1) 0,
           ps.getD (idxs.getD i 0 * 3 + 2) 0]) ∧
    (∀ ns : List Rat, p.normal.bind Accessor.array = some ns →
      (primNormalContrib p).length = 3 * idxs.length ∧
      ∀ i : Nat, i < idxs.length →
        ((primNormalContrib p).drop (3 * i)).take 3
          = [ns.getD (idxs.getD i 0 * 3) 0, ns.getD (idxs.getD i 0 * 3 + 1) 0,
             ns.getD (idxs.getD i 0 * 3 + 2) 0]) := by
  have hpos : primPositionContrib p = idxs.flatMap (idxTriple ps) := by
    simp [primPositionContrib, primContribution, hp, hps, hi, hidx]
  refine ⟨?_, ?_, ?_⟩
  · rw [hpos]
    exact flatMap_triple_length (idxTriple ps) (idxTriple_length ps) idxs
  · intro i hlt
    rw [hpos, flatMap_triple_chunk (idxTriple ps) (idxTriple_length ps) idxs i hlt]
    rfl
  · intro ns hns
    have hnorm : primNormalContrib p = idxs.flatMap (idxTriple ns) := by
      simp [primNormalContrib, primContribution, hp, hps, hi, hidx, hns]
    refine ⟨?_, ?_⟩
    · rw [hnorm]
      exact flatMap_triple_length (idxTriple ns) (idxTriple_length ns) idxs
    · intro i hlt
      rw [hnorm, flatMap_triple_chunk (idxTriple ns) (idxTriple_length ns) idxs i hlt]
      rfl

/-- Position array of the C2 instantiation: 4 unique vertices. -/
def quadPositions : List Rat := [0, 0, 0, 1, 0, 0, 0, 1, 0, 1, 1, 0]

/-- Index array of the C2 instantiation: 6 indices over the 4 vertices. -/
def quadIndices : List Nat := [0, 1, 2, 0, 2, 3]

/-- The C2 instantiation: an indexed primitive with 6 indices referencing 4
unique vertices. -/
def quadPrim : Primitive :=
  { position := some ⟨some quadPositions⟩, normal := none,
    indices := some ⟨some quadIndices⟩ }

/-- Concrete instantiation of the C2 theorem: 6 indices over 4 unique
vertices contribute exactly 18 floats, and the fifth triple (index 2) is the
third vertex. -/
theorem glbToGeometryData_indexed_expansion_witness :
    (primPositionContrib quadPrim).length = 18 ∧
    ((primPositionContrib quadPrim).drop 12).take 3 = [0, 1, 0] :=
  ⟨(glbToGeometryData_indexed_expansion quadPrim ⟨some quadPositions⟩ quadPositions
      ⟨some quadIndices⟩ quadIndices rfl rfl rfl rfl (by decide)).1,
   (glbToGeometryData_indexed_expansion quadPrim ⟨some quadPositions⟩ quadPositions
      ⟨some quadIndices⟩ quadIndices rfl rfl rfl rfl (by decide)).2.1 4 (by decide)⟩

/-- A document with two primitives, the first without normals and the second
with normals: the mixed case of the normal policy. -/
def mixedNormalsDoc : GlbDocument :=
  { nodes := [], scenes := [],
    meshes := [⟨[⟨some ⟨some [0, 0, 0]⟩, none, none⟩,
                 ⟨some ⟨some [1, 1, 1]⟩, some ⟨some [2, 2, 2]⟩, none⟩]⟩] }

/-- C3 is violated by the code on a mixed document: one primitive without
normals and one with normals yield a result that carries a normal array
(three floats) shorter than the position array (six floats), so "the normal
array is never shorter than the position array" fails. -/
theorem glbToGeometryData_mixed_normals_counterexample :
    (glbToGeometryData mixedNormalsDoc).position.length = 6 ∧
    (glbToGeometryData mixedNormalsDoc).normal = some [2, 2, 2] := by
  decide

/-- C3 (amended): the normal field is present iff at least one contributing
primitive supplied a nonempty normal array (it is exactly the concatenation
of the per-primitive normal contributions), a primitive without a resolvable
normal array contributes no normal entries (normals are never zero-filled),
and in particular when no contributing primitive supplied normals the result
carries positions only; in a mixed document, however, the normal array may
be shorter than the position array. -/
theorem glbToGeometryData_normals_policy (doc : GlbDocument) :
    ((glbToGeometryData doc).normal = none
      ↔ (allPrimitives doc).flatMap primNormalContrib = []) ∧
    (∀ ns : List Rat, (glbToGeometryData doc).normal = some ns
      → ns = (allPrimitives doc).flatMap primNormalContrib ∧ ns ≠ []) ∧
    (∀ p : Primitive, p.normal.bind Accessor.array = none → primNormalContrib p = []) := by
  refine ⟨?_, ?_, ?_⟩
  · rw [glbToGeometryData_eq]
    by_cases h : (allPrimitives doc).flatMap primNormalContrib = []
    · simp [h]
    · rw [if_pos (List.length_pos.mpr h)]
      simp [h]
  · intro ns hns
    rw [glbToGeometryData_eq] at hns
    by_cases h : (allPrimitives doc).flatMap primNormalContrib = []
    · simp [h] at hns
    · simp only [List.length_pos.mpr h, if_pos, Option.some.injEq] at hns
      subst hns
      exact ⟨rfl, h⟩
  · intro p hnone
    rcases hpos : p.position with _ | a
    · simp [primNormalContrib, primContribution, hpos]
    · rcases harr : a.array with _ | ps
      · simp [primNormalContrib, primContribution, hpos, harr]
      · rcases hidx : p.indices.bind IndexAccessor.array with _ | idxs
        · simp [primNormalContrib, primContribution, hpos, harr, hidx, hnone]
        · simp [primNormalContrib, primContribution, hpos, harr, hidx, hnone]

/-- A document with a single primitive carrying positions and no normals. -/
def posOnlyDoc : GlbDocument :=
  { nodes := [], scenes := [],
    meshes := [⟨[⟨some ⟨some [0, 0, 0]⟩, none, none⟩]⟩] }

/-- Concrete instantiation of the amended C3 theorem: with no normals
supplied anywhere, the result carries positions only. -/
theorem glbToGeometryData_normals_policy_witness :
    (glbToGeometryData posOnlyDoc).normal = none :=
  (glbToGeometryData_normals_policy posOnlyDoc).1.mpr (by decide)

/-- C7: a primitive lacking a `POSITION` accessor contributes nothing to
`glbToGeometryData` and does not abort the traversal: removing it from its
mesh leaves the result unchanged, so every other primitive of that mesh and
of every later mesh is still processed. (The model is a total function, so
no error can be raised.) -/
theorem glbToGeometryData_skips_positionless (nodes : List Node)
    (scenes : List (List Nat)) (ms1 ms2 : List Mesh) (ps1 ps2 : List Primitive)
    (p : Primitive) (h : p.position = none) :
    glbToGeometryData ⟨nodes, scenes, ms1 ++ ⟨ps1 ++ p :: ps2⟩ :: ms2⟩
      = glbToGeometryData ⟨nodes, scenes, ms1 ++ ⟨ps1 ++ ps2⟩ :: ms2⟩ := by
  have h1 : primPositionContrib p = [] := by
    simp [primPositionContrib, primContribution, h]
  have h2 : primNormalContrib p = [] := by
    simp [primNormalContrib, primContribution, h]
  rw [glbToGeometryData_eq, glbToGeometryData_eq]
  simp [allPrimitives, List.flatMap_append, List.flatMap_cons, h1, h2]

/-- A primitive with a normal array but no `POSITION` accessor. -/
def noPositionPrim : Primitive := ⟨none, some ⟨some [9, 9, 9]⟩, none⟩

/-- A plain primitive with a single vertex and no normals. -/
def simplePrim : Primitive := ⟨some ⟨some [1, 2, 3]⟩, none, none⟩

/-- Concrete instantiation of the C7 theorem. -/
theorem glbToGeometryData_skips_positionless_witness :
    glbToGeometryData ⟨[], [], [⟨[noPositionPrim, simplePrim]⟩]⟩
      = glbToGeometryData ⟨[], [], [⟨[simplePrim]⟩]⟩ :=
  glbToGeometryData_skips_positionless [] [] [] [] [] [simplePrim] noPositionPrim rfl

/-- Modelled from the spec: `decode` "must tolerate documents with zero
binary-data chunks (JSON-only, embedded-URI buffers) by producing a document
with an empty buffer list rather than failing" (spec section 4.1); the
decoding itself happens in the external gltf-transform library, so only its
stated outcome is modelled: in such a document no accessor's backing data is
available and every primitive's `POSITION` data fails to resolve to an array
(`getArray()` yields no array, i.e. `array = none` or the accessor absent). -/
def jsonOnlyDecoded (doc : GlbDocument) : Prop :=
  ∀ p ∈ allPrimitives doc, p.position.bind Accessor.array = none

/-- C8: on a document decoded from a JSON-only GLB (zero binary chunks),
`glbToGeometryData` does not fail: every primitive whose `POSITION` data
cannot be resolved contributes nothing, and since then no primitive
contributes, the result has an empty position array and no normal field. -/
theorem glbToGeometryData_json_only (doc : GlbDocument) (h : jsonOnlyDecoded doc) :
    (∀ p ∈ allPrimitives doc, primContribution p = ([], [])) ∧
    glbToGeometryData doc = { position := [], normal := none } := by
  have hc : ∀ p ∈ allPrimitives doc, primContribution p = ([], []) := by
    intro p hp
    have hres := h p hp
    rcases hpos : p.position with _ | a
    · simp [primContribution, hpos]
    · have hres2 : a.array = none := by rw [hpos] at hres; exact hres
      simp [primContribution, hpos, hres2]
  refine ⟨hc, ?_⟩
  rw [glbToGeometryData_eq]
  have h1 : (allPrimitives doc).flatMap primPositionContrib = [] :=
    List.flatMap_eq_nil_iff.mpr fun p hp => by
      simp [primPositionContrib, hc p hp]
  have h2 : (allPrimitives doc).flatMap primNormalContrib = [] :=
    List.flatMap_eq_nil_iff.mpr fun p hp => by
      simp [primNormalContrib, hc p hp]
  simp [h1, h2]

/-- A document as decoded from a JSON-only GLB: accessors are declared but
none of their arrays resolve. -/
def jsonOnlyDoc : GlbDocument :=
  { nodes := [], scenes := [],
    meshes := [⟨[⟨some ⟨none⟩, some ⟨none⟩, some ⟨none⟩⟩, ⟨none, none, none⟩]⟩] }

/-- Concrete instantiation of the C8 theorem. -/
theorem glbToGeometryData_json_only_witness :
    glbToGeometryData jsonOnlyDoc = { position := [], normal := none } :=
  (glbToGeometryData_json_only jsonOnlyDoc (by
    intro p hp
    simp only [jsonOnlyDecoded, allPrimitives] at hp ⊢
    fin_cases hp <;> rfl)).2

/-- A document whose single (non-indexed) primitive supplies a resolvable
normal array of a different length than its position array. -/
def mismatchedLengthsDoc : GlbDocument :=
  { nodes := [], scenes := [],
    meshes := [⟨[⟨some ⟨some [0, 0, 0]⟩, some ⟨some [1, 1, 1, 2, 2, 2]⟩, none⟩]⟩] }

/-- C10 is violated by the code: in a document where every contributing
primitive supplies a resolvable normal array (here the only primitive does,
as `List.all` checks), the normal output can still differ in length from
the position output, because the non-indexed branch appends the stored
arrays unchanged without comparing their lengths. -/
theorem glbToGeometryData_normal_length_counterexample :
    (allPrimitives mismatchedLengthsDoc).all
        (fun p => (p.normal.bind Accessor.array).isSome) = true ∧
    (glbToGeometryData mismatchedLengthsDoc).position.length = 3 ∧
    (glbToGeometryData mismatchedLengthsDoc).normal = some [1, 1, 1, 2, 2, 2] := by
  decide

theorem primContribution_length_eq (p : Primitive)
    (h : p.position.bind Accessor.array ≠ none →
      p.normal.bind Accessor.array ≠ none ∧
      ((p.normal.bind Accessor.array).getD []).length
        = ((p.position.bind Accessor.array).getD []).length) :
    (primNormalContrib p).length = (primPositionContrib p).length := by
  rcases hpos : p.position with _ | a
  · simp [primNormalContrib, primPositionContrib, primContribution, hpos]
  · rcases harr : a.array with _ | ps
    · simp [primNormalContrib, primPositionContrib, primContribution, hpos, harr]
    · have hne : p.position.bind Accessor.array ≠ none := by simp [hpos, harr]
      obtain ⟨hn, hlen⟩ := h hne
      rcases hns : p.normal.bind Accessor.array with _ | ns
      · exact absurd hns hn
      · rw [hns, hpos] at hlen
        simp [harr] at hlen
        rcases hidx : p.indices.bind IndexAccessor.array with _ | idxs
        · simp [primNormalContrib, primPositionContrib, primContribution,
            hpos, harr, hns, hidx, hlen]
        · simp [primNormalContrib, primPositionContrib, primContribution,
            hpos, harr, hns, hidx,
            flatMap_triple_length (idxTriple ps) (idxTriple_length ps),
            flatMap_triple_length (idxTriple ns) (idxTriple_length ns)]

/-- C10 (amended): for every document in which every contributing primitive
(one with a resolvable `POSITION` array) also supplies a resolvable `NORMAL`
array of the same length as its position array — true of every valid glTF
asset, where all attribute accessors of a primitive share one count — the
flattened normals match the flattened positions one-to-one: if the normal
array is present its length equals the position array's length, and it is
absent only when the position array is empty. -/
theorem glbToGeometryData_normals_match_positions (doc : GlbDocument)
    (h : ∀ p ∈ allPrimitives doc,
      p.position.bind Accessor.array ≠ none →
      p.normal.bind Accessor.array ≠ none ∧
      ((p.normal.bind Accessor.array).getD []).length
        = ((p.position.bind Accessor.array).getD []).length) :
    ((glbToGeometryData doc).normal.getD []).length
      = (glbToGeometryData doc).position.length := by
  have hlen : ((allPrimitives doc).flatMap primNormalContrib).length
      = ((allPrimitives doc).flatMap primPositionContrib).length := by
    rw [List.length_flatMap, List.length_flatMap]
    exact congrArg List.sum
      (List.map_congr_left fun p hp => primContribution_length_eq p (h p hp))
  rw [glbToGeometryData_eq]
  by_cases hz : 0 < ((allPrimitives doc).flatMap primNormalContrib).length
  · rw [if_pos hz]
    simpa using hlen
  · rw [if_neg hz]
    simp only [Option.getD_none, List.length_nil]
    omega

/-- A document whose single primitive supplies positions and normals of
matching length. -/
def matchedLengthsDoc : GlbDocument :=
  { nodes := [], scenes := [],
    meshes := [⟨[⟨some ⟨some [1, 2, 3]⟩, some ⟨some [4, 5, 6]⟩, none⟩]⟩] }

/-- Concrete instantiation of the amended C10 theorem. -/
theorem glbToGeometryData_normals_match_positions_witness :
    ((glbToGeometryData matchedLengthsDoc).normal.getD []).length
      = (glbToGeometryData matchedLengthsDoc).position.length :=
  glbToGeometryData_normals_match_positions matchedLengthsDoc (by decide)

/-- The matrix builder `createTransformMatrix` of `src/types.ts` (lines
38-44): a column-major 16-element translation + uniform-scale matrix, with
the source's default scale of 1. -/
def createTransformMatrix (x y z : Rat) (scale : Rat := 1) : List Rat :=
  [scale, 0, 0, 0, 0, scale, 0, 0, 0, 0, scale, 0, x, y, z, 1]

/-- The inline transform matrix literal of `src/RenderAsMesh.tsx` (lines
46-52), with the uniform scale `s` abstracted as a parameter (the source
fixes `s = 0.1`): translation + a +90-degree rotation about the first axis
+ uniform scale, column-major. -/
def rotationTransformMatrix (x y z s : Rat) : List Rat :=
  [s, 0, 0, 0, 0, 0, s, 0, 0, -s, 0, 0, x, y, z, 1]

/-- The exact matrix built by `RenderAsMesh.tsx`: the source's `s = 0.1` is
the IEEE double nearest to 1/10; no theorem below depends on its value, so
it is modelled by the exact rational 1/10. -/
def renderMeshTransform (x y z : Rat) : List Rat :=
  rotationTransformMatrix x y z (1 / 10)

/-- Application of a column-major 16-element matrix to a point `(x, y, z, 1)`:
component `i` of the result is `m[i]*v.x + m[i+4]*v.y + m[i+8]*v.z + m[i+12]`. -/
def applyMatrix (m : List Rat) (v : Vec3) : Vec3 :=
  ⟨m.getD 0 0 * v.x + m.getD 4 0 * v.y + m.getD 8 0 * v.z + m.getD 12 0,
   m.getD 1 0 * v.x + m.getD 5 0 * v.y + m.getD 9 0 * v.z + m.getD 13 0,
   m.getD 2 0 * v.x + m.getD 6 0 * v.y + m.getD 10 0 * v.z + m.getD 14 0⟩

/-- Rotation by +90 degrees about the first axis: `(a, b, c) ↦ (a, -c, b)`. -/
def rotX90 (v : Vec3) : Vec3 := ⟨v.x, -v.z, v.y⟩

/-- C9: both construction variants produce column-major 16-element matrices
of the claimed shape: `createTransformMatrix x y z s` is
`[s,0,0,0, 0,s,0,0, 0,0,s,0, x,y,z,1]` — uniform scale on the diagonal,
translation in elements 12-14, no rotation term, so it maps `v` to
`s·v + (x,y,z)` — and the RenderAsMesh variant is
`[s,0,0,0, 0,0,s,0, 0,-s,0,0, x,y,z,1]`, which maps `v` to
`s·(rotX90 v) + (x,y,z)`: a +90-degree rotation about the first axis
composed with uniform scale `s` and translation `(x,y,z)`. -/
theorem transformMatrix_variants (x y z s : Rat) :
    createTransformMatrix x y z s
      = [s, 0, 0, 0, 0, s, 0, 0, 0, 0, s, 0, x, y, z, 1] ∧
    (createTransformMatrix x y z s).length = 16 ∧
    rotationTransformMatrix x y z s
      = [s, 0, 0, 0, 0, 0, s, 0, 0, -s, 0, 0, x, y, z, 1] ∧
    (rotationTransformMatrix x y z s).length = 16 ∧
    (∀ v : Vec3, applyMatrix (createTransformMatrix x y z s) v
      = ⟨s * v.x + x, s * v.y + y, s * v.z + z⟩) ∧
    (∀ v : Vec3, applyMatrix (rotationTransformMatrix x y z s) v
      = ⟨s * (rotX90 v).x + x, s * (rotX90 v).y + y, s * (rotX90 v).z + z⟩) := by
  refine ⟨rfl, rfl, rfl, rfl, ?_, ?_⟩
  · intro v
    have h0 : applyMatrix (createTransformMatrix x y z s) v
        = ⟨s * v.x + 0 * v.y + 0 * v.z + x, 0 * v.x + s * v.y + 0 * v.z + y,
           0 * v.x + 0 * v.y + s * v.z + z⟩ := rfl
    rw [h0]
    exact (Vec3.mk.injEq _ _ _ _ _ _).mpr ⟨by ring, by ring, by ring⟩
  · intro v
    have h0 : applyMatrix (rotationTransformMatrix x y z s) v
        = ⟨s * v.x + 0 * v.y + 0 * v.z + x, 0 * v.x + 0 * v.y + -s * v.z + y,
           0 * v.x + s * v.y + 0 * v.z + z⟩ := rfl
    rw [h0]
    simp only [rotX90]
    exact (Vec3.mk.injEq _ _ _ _ _ _).mpr ⟨by ring, by ring, by ring⟩

/-!
Container Codec (spec sections 4.1 and 6). The decode/encode pair used by
`transformGlb` and `glbToGeometryData` is `WebIO.readBinary` /
`WebIO.writeBinary` of the external gltf-transform library, so the codec is
not part of this repository's sources; it is modelled from the spec: a GLB
byte stream is a 12-byte header (4-byte magic "glTF", uint32 version, uint32
total length) followed by 8-byte-prefixed chunks (uint32 length, uint32
type), the first being the structural chunk, padded to 4-byte alignment.
All multi-byte integers are little-endian. Bytes are naturals below 256.
-/

/-- LEB128-style byte encoding of a natural: little-endian base-128 digits,
high bit set on every byte but the last. The structural fuel argument (any
value at least `n` suffices, and the wrapper passes `n` itself) keeps the
definition primitive-recursive so that concrete byte strings reduce inside
the kernel. -/
def encNatAux : Nat → Nat → List Nat
  | 0, n => [n]
  | fuel + 1, n =>
    if n < 128 then [n]
    else (n % 128 + 128) :: encNatAux fuel (n / 128)

/-- Byte encoding of a natural (see `encNatAux`). -/
def encNat (n : Nat) : List Nat := encNatAux n n

/-- Decoder for `encNat`; returns the value and the remaining bytes. -/
def decNat : List Nat → Option (Nat × List Nat)
  | [] => none
  | b :: rest =>
    if b < 128 then some (b, rest)
    else (decNat rest).map (fun mr => (b - 128 + 128 * mr.1, mr.2))

/-- Sign-tagged integer encoding over `encNat`. -/
def encInt : Int → List Nat
  | .ofNat m => 0 :: encNat m
  | .negSucc m => 1 :: encNat m

/-- Decoder for `encInt`. -/
def decInt : List Nat → Option (Int × List Nat)
  | [] => none
  | b :: rest =>
    if b = 0 then (decNat rest).map (fun mr => (Int.ofNat mr.1, mr.2))
    else (decNat rest).map (fun mr => (Int.negSucc mr.1, mr.2))

/-- A scalar as numerator and denominator. -/
def encRat (q : Rat) : List Nat :=
  encInt q.num ++ encNat q.den

/-- Decoder for `encRat`. -/
def decRat (bs : List Nat) : Option (Rat × List Nat) :=
  (decInt bs).bind fun nr => (decNat nr.2).map fun dr => (mkRat nr.1 dr.1, dr.2)

/-- Length-prefixed sequence encoding. -/
def encList {α : Type} (f : α → List Nat) (xs : List α) : List Nat :=
  encNat xs.length ++ xs.flatMap f

/-- Decode `k` consecutive items with `dec`. -/
def decMany {α : Type} (dec : List Nat → Option (α × List Nat)) :
    Nat → List Nat → Option (List α × List Nat)
  | 0, bs => some ([], bs)
  | k + 1, bs =>
    (dec bs).bind fun ar =>
      (decMany dec k ar.2).map fun lr => (ar.1 :: lr.1, lr.2)

/-- Decoder for `encList`. -/
def decList {α : Type} (dec : List Nat → Option (α × List Nat))
    (bs : List Nat) : Option (List α × List Nat) :=
  (decNat bs).bind fun nr => decMany dec nr.1 nr.2

/-- Tag-byte option encoding. -/
def encOption {α : Type} (f : α → List Nat) : Option α → List Nat
  | none => [0]
  | some a => 1 :: f a

/-- Decoder for `encOption`. -/
def decOption {α : Type} (dec : List Nat → Option (α × List Nat)) :
    List Nat → Option (Option α × List Nat)
  | [] => none
  | b :: rest =>
    if b = 0 then some (none, rest)
    else (dec rest).map fun ar => (some ar.1, ar.2)

/-- A character as its code point. -/
def encChar (c : Char) : List Nat := encNat c.toNat

/-- Decoder for `encChar`. -/
def decChar (bs : List Nat) : Option (Char × List Nat) :=
  (decNat bs).map fun nr => (Char.ofNat nr.1, nr.2)

/-- Strings as length-prefixed character codes. -/
def encString (s : String) : List Nat :=
  encList encChar s.data

/-- Decoder for `encString`. -/
def decString (bs : List Nat) : Option (String × List Nat) :=
  (decList decChar bs).map fun lr => (String.mk lr.1, lr.2)

/-- 3-vector payload. -/
def encVec3 (v : Vec3) : List Nat := encRat v.x ++ encRat v.y ++ encRat v.z

/-- Decoder for `encVec3`. -/
def decVec3 (bs : List Nat) : Option (Vec3 × List Nat) :=
  (decRat bs).bind fun a => (decRat a.2).bind fun b =>
    (decRat b.2).map fun c => (⟨a.1, b.1, c.1⟩, c.2)

/-- 4-vector payload. -/
def encVec4 (v : Vec4) : List Nat :=
  encRat v.x ++ encRat v.y ++ encRat v.z ++ encRat v.w

/-- Decoder for `encVec4`. -/
def decVec4 (bs : List Nat) : Option (Vec4 × List Nat) :=
  (decRat bs).bind fun a => (decRat a.2).bind fun b =>
    (decRat b.2).bind fun c => (decRat c.2).map fun d => (⟨a.1, b.1, c.1, d.1⟩, d.2)

/-- Node payload. -/
def encNode (nd : Node) : List Nat :=
  encString nd.name ++ encVec3 nd.translation ++ encVec4 nd.rotation ++
    encVec3 nd.scale ++ encOption encNat nd.mesh ++ encList encNat nd.children

/-- Decoder for `encNode`. -/
def decNode (bs : List Nat) : Option (Node × List Nat) :=
  (decString bs).bind fun a => (decVec3 a.2).bind fun b =>
    (decVec4 b.2).bind fun c => (decVec3 c.2).bind fun d =>
      (decOption decNat d.2).bind fun e => (decList decNat e.2).map fun f =>
        (⟨a.1, b.1, c.1, d.1, e.1, f.1⟩, f.2)

/-- Float accessor payload. -/
def encAccessor (a : Accessor) : List Nat := encOption (encList encRat) a.array

/-- Decoder for `encAccessor`. -/
def decAccessor (bs : List Nat) : Option (Accessor × List Nat) :=
  (decOption (decList decRat) bs).map fun ar => (⟨ar.1⟩, ar.2)

/-- Index accessor payload. -/
def encIndexAccessor (a : IndexAccessor) : List Nat :=
  encOption (encList encNat) a.array

/-- Decoder for `encIndexAccessor`. -/
def decIndexAccessor (bs : List Nat) : Option (IndexAccessor × List Nat) :=
  (decOption (decList decNat) bs).map fun ar => (⟨ar.1⟩, ar.2)

/-- Primitive payload. -/
def encPrimitive (p : Primitive) : List Nat :=
  encOption encAccessor p.position ++ encOption encAccessor p.normal ++
    encOption encIndexAccessor p.indices

/-- Decoder for `encPrimitive`. -/
def decPrimitive (bs : List Nat) : Option (Primitive × List Nat) :=
  (decOption decAccessor bs).bind fun a => (decOption decAccessor a.2).bind fun b =>
    (decOption decIndexAccessor b.2).map fun c => (⟨a.1, b.1, c.1⟩, c.2)

/-- Mesh payload. -/
def encMesh (m : Mesh) : List Nat := encList encPrimitive m.primitives

/-- Decoder for `encMesh`. -/
def decMesh (bs : List Nat) : Option (Mesh × List Nat) :=
  (decList decPrimitive bs).map fun pr => (⟨pr.1⟩, pr.2)

/-- Modelled from the spec: the structural chunk of a GLB carries the whole
scene description. The library writes it as JSON, whose exact byte layout is
external to this repository, so it is modelled as an injective,
self-delimiting serialization of the same node/scene/mesh/accessor graph. -/
def encDocPayload (d : GlbDocument) : List Nat :=
  encList encNode d.nodes ++ encList (encList encNat) d.scenes ++
    encList encMesh d.meshes

/-- Decoder for `encDocPayload`. -/
def decDocPayload (bs : List Nat) : Option (GlbDocument × List Nat) :=
  (decList decNode bs).bind fun a => (decList (decList decNat) a.2).bind fun b =>
    (decList decMesh b.2).map fun c => (⟨a.1, b.1, c.1⟩, c.2)

theorem decNat_encNatAux (fuel : Nat) : ∀ n : Nat, n ≤ fuel → ∀ rest : List Nat,
    decNat (encNatAux fuel n ++ rest) = some (n, rest) := by
  induction fuel with
  | zero =>
    intro n hn rest
    have h0 : n = 0 := Nat.le_zero.mp hn
    subst h0
    simp [encNatAux, decNat]
  | succ fuel ih =>
    intro n hn rest
    by_cases h : n < 128
    · simp [encNatAux, h, decNat]
    · have hfuel : n / 128 ≤ fuel := by omega
      have hb : ¬ (n % 128 + 128 < 128) := by omega
      simp [encNatAux, h, decNat, hb, ih (n / 128) hfuel rest]
      omega

theorem decNat_encNat (n : Nat) : ∀ rest : List Nat,
    decNat (encNat n ++ rest) = some (n, rest) :=
  decNat_encNatAux n n (Nat.le_refl n)

theorem decInt_encInt (i : Int) : ∀ rest : List Nat,
    decInt (encInt i ++ rest) = some (i, rest) := by
  intro rest
  cases i with
  | ofNat m => simp [encInt, decInt, decNat_encNat]
  | negSucc m => simp [encInt, decInt, decNat_encNat]

theorem decRat_encRat (q : Rat) : ∀ rest : List Nat,
    decRat (encRat q ++ rest) = some (q, rest) := by
  intro rest
  simp [encRat, decRat, List.append_assoc, decInt_encInt, decNat_encNat,
    Rat.mkRat_self]

theorem decMany_encMany {α : Type} (dec : List Nat → Option (α × List Nat))
    (f : α → List Nat) (hf : ∀ a rest, dec (f a ++ rest) = some (a, rest))
    (xs : List α) : ∀ rest : List Nat,
    decMany dec xs.length (xs.flatMap f ++ rest) = some (xs, rest) := by
  induction xs with
  | nil => intro rest; simp [decMany]
  | cons a l ih =>
    intro rest
    simp [decMany, List.flatMap_cons, List.append_assoc, hf, ih]

theorem decList_encList {α : Type} (dec : List Nat → Option (α × List Nat))
    (f : α → List Nat) (hf : ∀ a rest, dec (f a ++ rest) = some (a, rest))
    (xs : List α) : ∀ rest : List Nat,
    decList dec (encList f xs ++ rest) = some (xs, rest) := by
  intro rest
  simp [encList, decList, List.append_assoc, decNat_encNat, decMany_encMany dec f hf]

theorem decOption_encOption {α : Type} (dec : List Nat → Option (α × List Nat))
    (f : α → List Nat) (hf : ∀ a rest, dec (f a ++ rest) = some (a, rest))
    (o : Option α) : ∀ rest : List Nat,
    decOption dec (encOption f o ++ rest) = some (o, rest) := by
  intro rest
  cases o with
  | none => simp [encOption, decOption]
  | some a => simp [encOption, decOption, hf]

theorem decChar_encChar (c : Char) : ∀ rest : List Nat,
    decChar (encChar c ++ rest) = some (c, rest) := by
  intro rest
  simp [encChar, decChar, decNat_encNat, Char.ofNat_toNat]

theorem decString_encString (s : String) : ∀ rest : List Nat,
    decString (encString s ++ rest) = some (s, rest) := by
  intro rest
  simp [encString, decString, decList_encList decChar encChar decChar_encChar s.data]

theorem decVec3_encVec3 (v : Vec3) : ∀ rest : List Nat,
    decVec3 (encVec3 v ++ rest) = some (v, rest) := by
  intro rest
  simp [encVec3, decVec3, List.append_assoc, decRat_encRat]

theorem decVec4_encVec4 (v : Vec4) : ∀ rest : List Nat,
    decVec4 (encVec4 v ++ rest) = some (v, rest) := by
  intro rest
  simp [encVec4, decVec4, List.append_assoc, decRat_encRat]

theorem decNode_encNode (nd : Node) : ∀ rest : List Nat,
    decNode (encNode nd ++ rest) = some (nd, rest) := by
  intro rest
  simp [encNode, decNode, List.append_assoc, decString_encString,
    decVec3_encVec3, decVec4_encVec4,
    decOption_encOption decNat encNat decNat_encNat,
    decList_encList decNat encNat decNat_encNat]

theorem decAccessor_encAccessor (a : Accessor) : ∀ rest : List Nat,
    decAccessor (encAccessor a ++ rest) = some (a, rest) := by
  intro rest
  simp [encAccessor, decAccessor,
    decOption_encOption (decList decRat) (encList encRat)
      (decList_encList decRat encRat decRat_encRat) a.array]

theorem decIndexAccessor_encIndexAccessor (a : IndexAccessor) : ∀ rest : List Nat,
    decIndexAccessor (encIndexAccessor a ++ rest) = some (a, rest) := by
  intro rest
  simp [encIndexAccessor, decIndexAccessor,
    decOption_encOption (decList decNat) (encList encNat)
      (decList_encList decNat encNat decNat_encNat) a.array]

theorem decPrimitive_encPrimitive (p : Primitive) : ∀ rest : List Nat,
    decPrimitive (encPrimitive p ++ rest) = some (p, rest) := by
  intro rest
  simp [encPrimitive, decPrimitive, List.append_assoc,
    decOption_encOption decAccessor encAccessor decAccessor_encAccessor,
    decOption_encOption decIndexAccessor encIndexAccessor
      decIndexAccessor_encIndexAccessor]

theorem decMesh_encMesh (m : Mesh) : ∀ rest : List Nat,
    decMesh (encMesh m ++ rest) = some (m, rest) := by
  intro rest
  simp [encMesh, decMesh,
    decList_encList decPrimitive encPrimitive decPrimitive_encPrimitive]

theorem decDocPayload_encDocPayload (d : GlbDocument) : ∀ rest : List Nat,
    decDocPayload (encDocPayload d ++ rest) = some (d, rest) := by
  intro rest
  simp [encDocPayload, decDocPayload, List.append_assoc,
    decList_encList decNode encNode decNode_encNode,
    decList_encList (decList decNat) (encList encNat)
      (decList_encList decNat encNat decNat_encNat),
    decList_encList decMesh encMesh decMesh_encMesh]

/-- Little-endian 4-byte encoding of an unsigned 32-bit value (wrapping,
as a 4-byte field can only store the value modulo 2^32). -/
def encU32 (n : Nat) : List Nat :=
  [n % 256, n / 256 % 256, n / 65536 % 256, n / 16777216 % 256]

/-- Little-endian 4-byte decoder. -/
def decU32 : List Nat → Option (Nat × List Nat)
  | b0 :: b1 :: b2 :: b3 :: rest =>
    some (b0 + 256 * b1 + 65536 * b2 + 16777216 * b3, rest)
  | _ => none

theorem encU32_length (n : Nat) : (encU32 n).length = 4 := rfl

theorem decU32_encU32 (n : Nat) (rest : List Nat) :
    decU32 (encU32 n ++ rest) = some (n % 4294967296, rest) := by
  simp only [encU32, List.cons_append, List.nil_append, decU32,
    Option.some.injEq, Prod.mk.injEq]
  exact ⟨by omega, trivial⟩

/-- The error taxonomy of the codec (spec section 7). -/
inductive FormatError where
  | badMagic
  | badVersion
  | badLength
  | badChunk
  | badJson
deriving DecidableEq

/-- The uint32 value of the structural chunk type tag ("JSON"). -/
def jsonChunkType : Nat := 1313821514

/-- Pad to 4-byte alignment with the format's pad byte (0x20 for the
structural chunk). -/
def pad4 (l : List Nat) : List Nat :=
  l ++ List.replicate ((4 - l.length % 4) % 4) 32

/-- Modelled from the spec: `encode(document) -> bytes` of the Container
Codec (implemented by the external gltf-transform library): the 12-byte
header — magic "glTF" (bytes 103, 108, 84, 70), version 2, total length —
followed by the 8-byte chunk header (length, type "JSON") and the padded
structural chunk. -/
def encode (d : GlbDocument) : List Nat :=
  103 :: 108 :: 84 :: 70 ::
    (encU32 2 ++ encU32 (20 + (pad4 (encDocPayload d)).length) ++
      encU32 (pad4 (encDocPayload d)).length ++ encU32 jsonChunkType ++
      pad4 (encDocPayload d))

/-- Modelled from the spec: `decode(bytes) -> GlbDocument` of the Container
Codec: fails with a `FormatError` when the magic signature does not match,
the version is unsupported, the declared total length disagrees with the
actual byte length, a chunk length exceeds the remaining buffer, or the
structural chunk cannot be parsed; otherwise parses the structural chunk. -/
def decode (bs : List Nat) : Except FormatError GlbDocument :=
  match bs with
  | b0 :: b1 :: b2 :: b3 :: rest0 =>
    if b0 = 103 ∧ b1 = 108 ∧ b2 = 84 ∧ b3 = 70 then
      match decU32 rest0 with
      | none => .error .badVersion
      | some (ver, rest1) =>
        if ver = 2 then
          match decU32 rest1 with
          | none => .error .badLength
          | some (total, rest2) =>
            if total = bs.length then
              match decU32 rest2 with
              | none => .error .badChunk
              | some (clen, rest3) =>
                match decU32 rest3 with
                | none => .error .badChunk
                | some (ctype, rest4) =>
                  if ctype = jsonChunkType then
                    if clen ≤ rest4.length then
                      match decDocPayload (rest4.take clen) with
                      | none => .error .badJson
                      | some (dr, _) => .ok dr
                    else .error .badChunk
                  else .error .badChunk
            else .error .badLength
        else .error .badVersion
    else .error .badMagic
  | _ => .error .badMagic

theorem encode_length (d : GlbDocument) :
    (encode d).length = 20 + (pad4 (encDocPayload d)).length := by
  simp [encode, encU32]
  omega

theorem decode_encode (d : GlbDocument) (h : (encode d).length < 2 ^ 32) :
    decode (encode d) = Except.ok d := by
  have hlen : (encode d).length = 20 + (pad4 (encDocPayload d)).length :=
    encode_length d
  have hpl : 20 + (pad4 (encDocPayload d)).length < 4294967296 := by
    rw [hlen] at h
    have h32 : (2 : Nat) ^ 32 = 4294967296 := by norm_num
    omega
  have htot : (20 + (pad4 (encDocPayload d)).length) % 4294967296
      = 20 + (pad4 (encDocPayload d)).length := Nat.mod_eq_of_lt hpl
  have hclen : ((pad4 (encDocPayload d)).length) % 4294967296
      = (pad4 (encDocPayload d)).length := Nat.mod_eq_of_lt (by omega)
  have hjson : jsonChunkType % 4294967296 = jsonChunkType := by
    norm_num [jsonChunkType]
  simp only [encode, decode, decU32_encU32, htot, hclen, hjson]
  norm_num
  rw [decU32_encU32]
  norm_num
  rw [decU32_encU32, htot]
  norm_num
  simp only [encU32_length]
  rw [if_pos (by omega : 20 + (pad4 (encDocPayload d)).length
    = 4 + (4 + (4 + (4 + (pad4 (encDocPayload d)).length))) + 1 + 1 + 1 + 1)]
  rw [decU32_encU32, hclen]
  norm_num
  rw [decU32_encU32, hjson]
  norm_num
  simp only [pad4]
  rw [decDocPayload_encDocPayload]

/-- Number of nodes of a document. -/
def nodeCount (d : GlbDocument) : Nat := d.nodes.length

/-- Number of meshes of a document. -/
def meshCount (d : GlbDocument) : Nat := d.meshes.length

/-- Number of accessors referenced by one primitive. -/
def primAccessorCount (p : Primitive) : Nat :=
  (if p.position.isSome then 1 else 0) + (if p.normal.isSome then 1 else 0) +
    (if p.indices.isSome then 1 else 0)

/-- Number of accessors referenced by the document's primitives. -/
def accessorCount (d : GlbDocument) : Nat :=
  ((allPrimitives d).map primAccessorCount).sum

/-- C4: decode followed by encode followed by decode is structurally
idempotent: for any valid GLB byte stream, re-decoding the re-encoded
document yields a document with the same node count, mesh count and
accessor count as the first decode (here the round trip gives back the very
same document; the size bound keeps the 4-byte total-length field exact). -/
theorem decode_encode_structural (bs : List Nat) (d : GlbDocument)
    (_hdec : decode bs = .ok d) (hsize : (encode d).length < 2 ^ 32) :
    ∃ d2, decode (encode d) = .ok d2 ∧ nodeCount d2 = nodeCount d ∧
      meshCount d2 = meshCount d ∧ accessorCount d2 = accessorCount d :=
  ⟨d, decode_encode d hsize, rfl, rfl, rfl⟩

/-- A document exercising every constructor: one node, one scene, one mesh
with an indexed primitive. -/
def roundTripDoc : GlbDocument :=
  { nodes := [sampleNode], scenes := [[0]],
    meshes := [⟨[⟨some ⟨some [1, 2, 3]⟩, none, some ⟨some [0, 0, 0]⟩⟩]⟩] }

set_option maxRecDepth 100000 in
/-- Concrete instantiation of the C4 theorem, on the bytes encoding
`roundTripDoc`. -/
theorem decode_encode_structural_witness :
    ∃ d2, decode (encode roundTripDoc) = .ok d2 ∧
      nodeCount d2 = nodeCount roundTripDoc ∧
      meshCount d2 = meshCount roundTripDoc ∧
      accessorCount d2 = accessorCount roundTripDoc :=
  decode_encode_structural (encode roundTripDoc) roundTripDoc
    (decode_encode roundTripDoc (by decide)) (by decide)
